import Mathlib

/-!
Verification development for the TRADERDECK Carnivore portfolio scraper
(`scrape_carnivore.py`).  The pure parts of the scraper (numeric-cell
parsing, table-row extraction, heading-based table classification, field
normalization, snapshot assembly, exit-status logic) are embedded as
executable Lean definitions; browser interaction (which selector fills
succeed, whether the dashboard URL is reached, which tables a page holds)
is abstracted as explicit inputs to those definitions.

Strings are modelled over their character lists; case folding and
whitespace are modelled for ASCII (the scraper's data is ASCII; Python's
full Unicode case mapping is outside the model).  Python `float` is
modelled as an exact parser of finite decimal literals into a fraction
`num / 10^k` (type `PyFloat` below, with an interpretation `PyFloat.toRat`
into `ℚ`); IEEE 754 rounding, non-finite literals (`inf`/`nan`) and
digit-group underscores are outside the model and are not exercised by
any claim.
-/

namespace Scraper

/-- ASCII whitespace characters recognized by the model of Python's
`str.strip` (space, tab, newline, carriage return, vertical tab, form feed). -/
def isSpaceChar (c : Char) : Bool :=
  c = ' ' || c = '\t' || c = '\n' || c = '\r' || c = '\x0b' || c = '\x0c'

/-- Model of Python `str.strip()` on a character list: drop whitespace from
both ends. -/
def stripList (l : List Char) : List Char :=
  ((l.dropWhile isSpaceChar).reverse.dropWhile isSpaceChar).reverse

/-- Model of Python `str.strip()` on strings. -/
def pyStrip (s : String) : String := ⟨stripList s.data⟩

/-- The 26 ASCII lowercase letters paired with their uppercase forms. -/
def upperPairs : List (Char × Char) :=
  [('a','A'), ('b','B'), ('c','C'), ('d','D'), ('e','E'), ('f','F'), ('g','G'),
   ('h','H'), ('i','I'), ('j','J'), ('k','K'), ('l','L'), ('m','M'), ('n','N'),
   ('o','O'), ('p','P'), ('q','Q'), ('r','R'), ('s','S'), ('t','T'), ('u','U'),
   ('v','V'), ('w','W'), ('x','X'), ('y','Y'), ('z','Z')]

/-- ASCII model of Python's per-character uppercasing. -/
def charUpper (c : Char) : Char :=
  (((upperPairs.find? (fun p => p.1 = c)).map (fun p => p.2)).getD c)

/-- ASCII model of Python's per-character lowercasing. -/
def charLower (c : Char) : Char :=
  (((upperPairs.find? (fun p => p.2 = c)).map (fun p => p.1)).getD c)

/-- Model of Python `str.upper()`. -/
def pyUpper (s : String) : String := ⟨s.data.map charUpper⟩

/-- Model of Python `str.lower()`. -/
def pyLower (s : String) : String := ⟨s.data.map charLower⟩

/-- `startsWithL needle hay` holds when `needle` is an initial segment of `hay`. -/
def startsWithL : List Char → List Char → Bool
  | [], _ => true
  | _ :: _, [] => false
  | a :: as, b :: bs => a = b && startsWithL as bs

/-- Model of Python's `needle in hay` substring test on character lists. -/
def hasSubL (needle : List Char) : List Char → Bool
  | [] => startsWithL needle []
  | c :: t => startsWithL needle (c :: t) || hasSubL needle t

/-- Model of Python's `needle in hay` substring test on strings. -/
def hasSubStr (needle hay : String) : Bool := hasSubL needle.data hay.data

/-- Decimal digit test. -/
def isDigitChar (c : Char) : Bool := '0' ≤ c && c ≤ '9'

/-- Value of a list of decimal digit characters read left to right. -/
def digitsToNat (l : List Char) : Nat :=
  l.foldl (fun a c => 10 * a + (c.toNat - 48)) 0

/-- Exact value of a finite Python float literal: an integer numerator over a
power-of-ten denominator.  Kept unnormalized so that all arithmetic on it is
structurally computable. -/
structure PyFloat where
  num : Int
  den : Nat
deriving DecidableEq

/-- Interpretation of a parsed float value as a rational number. -/
def PyFloat.toRat (x : PyFloat) : ℚ := (x.num : ℚ) / (x.den : ℚ)

/-- Split an optional leading sign off a numeric literal. -/
def splitSign : List Char → Int × List Char
  | '-' :: t => (-1, t)
  | '+' :: t => (1, t)
  | l => (1, l)

/-- Parse the exponent suffix of a float literal (everything after `e`/`E`),
scaling the already-parsed mantissa. -/
def pyExp (mant : PyFloat) (t : List Char) : Option PyFloat :=
  let s := splitSign t
  let ed := s.2.takeWhile isDigitChar
  let rest := s.2.dropWhile isDigitChar
  if ed.isEmpty || !rest.isEmpty then none
  else if 0 ≤ s.1 then some ⟨mant.num * (10 : Int) ^ digitsToNat ed, mant.den⟩
  else some ⟨mant.num, mant.den * 10 ^ digitsToNat ed⟩

/-- Parse a whitespace-stripped Python float literal: optional sign, integer
part, optional fractional part, optional exponent.  Returns `none` exactly
when Python `float()` would raise `ValueError` (finite literals only). -/
def pyFloatCore (l : List Char) : Option PyFloat :=
  let ss := splitSign l
  let ip := ss.2.takeWhile isDigitChar
  let l2 := ss.2.dropWhile isDigitChar
  let fp : Option (List Char) × List Char :=
    match l2 with
    | '.' :: t => (some (t.takeWhile isDigitChar), t.dropWhile isDigitChar)
    | _ => (none, l2)
  if ip.isEmpty && (match fp.1 with | none => true | some f => f.isEmpty) then none
  else
    let mant : PyFloat :=
      match fp.1 with
      | some f => ⟨ss.1 * ((digitsToNat ip * 10 ^ f.length + digitsToNat f : Nat) : Int), 10 ^ f.length⟩
      | none => ⟨ss.1 * (digitsToNat ip : Int), 1⟩
    match fp.2 with
    | [] => some mant
    | 'e' :: t => pyExp mant t
    | 'E' :: t => pyExp mant t
    | _ => none

/-- Model of Python `float(s)` on a character list (strips surrounding
whitespace, then parses a finite float literal). -/
def pyFloatL (l : List Char) : Option PyFloat := pyFloatCore (stripList l)

/-- Model of Python single-character `str.replace(c, r)`. -/
def replaceChar (c : Char) (r : List Char) : List Char → List Char
  | [] => []
  | x :: t => (if x = c then r else [x]) ++ replaceChar c r t

/-- Embeds `clean_num` (scrape_carnivore.py lines 37–45): strip the cell,
delete `$`/`,`/`%`, turn `(` into `-` and delete `)`, then try `float`;
`None` both for a `None` input and for an unparseable string. -/
def clean_num : Option String → Option PyFloat
  | none => none
  | some s0 =>
    let l := stripList s0.data
    let l := replaceChar '$' [] l
    let l := replaceChar ',' [] l
    let l := replaceChar '%' [] l
    let l := replaceChar '(' ['-'] l
    let l := replaceChar ')' [] l
    pyFloatL l

/-- A raw extracted table row: as-rendered column label ↦ cell text, in
column order (the items of a Python dict). -/
abbrev RawRow := List (String × String)

/-- Model of one Python dict assignment `d[k] = v`: an existing key keeps its
position and gets the new value, a new key is appended. -/
def dictInsert (d : List (String × String)) (k v : String) : List (String × String) :=
  if d.any (fun p => p.1 = k) then d.map (fun p => if p.1 = k then (k, v) else p)
  else d ++ [(k, v)]

/-- Model of a Python dict built by inserting the given pairs in order
(dict-comprehension semantics: first position, last value on key collision). -/
def pyDict (pairs : List (String × String)) : List (String × String) :=
  pairs.foldl (fun d p => dictInsert d p.1 p.2) []

/-- The key view used by the normalizer: `k.lower().strip()`. -/
def lowerTrim (k : String) : String := pyStrip (pyLower k)

/-- Embeds `keys_lower` (scrape_carnivore.py line 291): the dict comprehension
`{k.lower().strip(): v for k, v in row.items()}`. -/
def keys_lower (row : RawRow) : List (String × String) :=
  pyDict (row.map (fun p => (lowerTrim p.1, p.2)))

/-- Embeds the local `get` of `normalize_portfolio` (lines 293–298): scan the
candidate substrings in declared order and, for each, the lowercased keys in
insertion order; the first key containing the candidate supplies the value. -/
def get (cands : List String) (kl : List (String × String)) : Option String :=
  match cands with
  | [] => none
  | c :: cs =>
    match kl.find? (fun p => hasSubStr c p.1) with
    | some p => some p.2
    | none => get cs kl

/-- Python truthiness of an optional string: `None` and `""` are falsy. -/
def truthy : Option String → Bool
  | none => false
  | some s => !(s = "")

/-- Candidate substrings for the ticker field (line 300). -/
def tickerCands : List String := ["ticker", "symbol", "stock", "name"]

/-- Candidate substrings for the name field (line 301). -/
def nameCands : List String := ["company", "name", "description"]

/-- Candidate substrings for the shares field (line 302). -/
def sharesCands : List String := ["shares", "qty", "quantity", "position"]

/-- Candidate substrings for the average-cost field (line 303). -/
def avgCostCands : List String := ["avg", "cost", "average", "entry", "basis"]

/-- Candidate substrings for the current-price field (line 304). -/
def currPriceCands : List String := ["price", "current", "last", "close"]

/-- Candidate substrings for the market-value field (line 305). -/
def marketValCands : List String := ["market", "value", "mkt val"]

/-- Candidate substrings for the unrealized-PnL field (line 306). -/
def unrealizedCands : List String := ["unrealized", "gain", "p&l", "pnl", "profit"]

/-- Candidate substrings for the percent-return field (line 307). -/
def pctChgCands : List String := ["return", "change", "pct", "%", "gain%"]

/-- Candidate substrings for the weight field (line 308). -/
def weightCands : List String := ["weight", "alloc", "allocation", "%"]

/-- Candidate substrings for the sector field (line 309). -/
def sectorCands : List String := ["sector", "category", "group"]

/-- A normalized position as built by `normalize_portfolio` (lines 314–326).
`raw` embeds the `"_raw"` entry that keeps the original row.  `ticker` and
`name` are plain strings because a position is only emitted when the resolved
ticker is truthy (and `name` then falls back to it). -/
structure Position where
  ticker : String
  name : String
  shares : Option PyFloat
  avg_cost : Option PyFloat
  curr_price : Option PyFloat
  market_value : Option PyFloat
  unrealized_pnl : Option PyFloat
  pct_return : Option PyFloat
  weight : Option PyFloat
  sector : Option String
  raw : RawRow
deriving DecidableEq

/-- Embeds one iteration of the `normalize_portfolio` loop (lines 289–327):
resolve each canonical field from the row, skip the row when the resolved
ticker is falsy (`None` or empty), otherwise emit the position dict. -/
def normRow (row : RawRow) : Option Position :=
  let kl := keys_lower row
  match get tickerCands kl with
  | none => none
  | some t =>
    if t = "" then none
    else some {
      ticker := pyStrip (pyUpper t),
      name := if truthy (get nameCands kl) then (get nameCands kl).getD "" else t,
      shares := clean_num (get sharesCands kl),
      avg_cost := clean_num (get avgCostCands kl),
      curr_price := clean_num (get currPriceCands kl),
      market_value := clean_num (get marketValCands kl),
      unrealized_pnl := clean_num (get unrealizedCands kl),
      pct_return := clean_num (get pctChgCands kl),
      weight := clean_num (get weightCands kl),
      sector := get sectorCands kl,
      raw := row }

/-- Embeds `normalize_portfolio` (lines 283–329): normalize each row, keeping
only rows with a resolvable ticker. -/
def normalize_portfolio (rows : List RawRow) : List Position :=
  rows.filterMap normRow

/-- JSON values appearing in a serialized position record. -/
inductive JValue where
  | s (v : String)
  | q (v : PyFloat)
  | null
  | obj (r : RawRow)
deriving DecidableEq

/-- Serialization of an optional numeric field: `json.dump` writes Python
`None` as JSON `null`. -/
def jsonOfNum : Option PyFloat → JValue
  | none => .null
  | some v => .q v

/-- Serialization of an optional string field. -/
def jsonOfStr : Option String → JValue
  | none => .null
  | some v => .s v

/-- The serialized form of a position record, in the key order of the dict
literal at lines 314–326 (which `json.dump` preserves). -/
def posFields (p : Position) : List (String × JValue) :=
  [("ticker", .s p.ticker), ("name", .s p.name), ("shares", jsonOfNum p.shares),
   ("avg_cost", jsonOfNum p.avg_cost), ("curr_price", jsonOfNum p.curr_price),
   ("market_value", jsonOfNum p.market_value),
   ("unrealized_pnl", jsonOfNum p.unrealized_pnl),
   ("pct_return", jsonOfNum p.pct_return), ("weight", jsonOfNum p.weight),
   ("sector", jsonOfStr p.sector), ("_raw", .obj p.raw)]

/-- An HTML table as seen by the discovery loop (lines 191–236): the heading
text found by the ancestor query, the stripped texts of its `thead th/td`
cells, the stripped cell texts of its first `tr` (used when the `thead` is
empty), and the stripped cell texts of each `tbody tr`. -/
structure Table where
  heading : String
  theadCells : List String
  firstRowCells : List String
  bodyRows : List (List String)
deriving DecidableEq

/-- Embeds the header derivation (lines 212–215): `thead` cells, else the
first row's cells. -/
def tableHeaders (t : Table) : List String :=
  if t.theadCells.isEmpty then t.firstRowCells else t.theadCells

/-- Embeds the row-dict comprehension at line 221:
`{headers[j] if j < len(headers) else f"col_{j}": cells[j] for j in range(len(cells))}`. -/
def rowDict (headers : List String) (cells : List String) : RawRow :=
  pyDict (cells.enum.map (fun jc =>
    (if jc.1 < headers.length then headers.getD jc.1 "" else "col_" ++ toString jc.1, jc.2)))

/-- Embeds the per-table row extraction (lines 217–222): one RawRow per
`tbody` row whose cell list is non-empty and has some non-empty cell. -/
def tableDataRows (t : Table) : List RawRow :=
  (t.bodyRows.filter (fun cells => !cells.isEmpty && cells.any (fun s => !(s = "")))).map
    (rowDict (tableHeaders t))

/-- Embeds the heading test at line 227: `"sector" in heading_lower and
("rotation" in heading_lower or "sector" in heading_lower)` (the second
conjunct is redundant as written in the source). -/
def matchesSector (t : Table) : Bool :=
  let h := pyLower t.heading
  hasSubStr "sector" h && (hasSubStr "rotation" h || hasSubStr "sector" h)

/-- Embeds the heading test at line 231: `"long" in heading_lower and "term"
in heading_lower`. -/
def matchesLong (t : Table) : Bool :=
  let h := pyLower t.heading
  hasSubStr "long" h && hasSubStr "term" h

/-- The raw extraction result: the two row lists of the `result` dict
(lines 178–183; the timestamp and source strings are omitted from the model). -/
structure RawResult where
  sector_rotation : List RawRow
  long_term : List RawRow
deriving DecidableEq

/-- Embeds one iteration of the table loop (lines 191–236): a table whose
heading matches the sector test overwrites `result["sector_rotation"]`, else
a long-term heading overwrites `result["long_term"]`, else the table is only
logged. -/
def classifyStep (acc : RawResult) (t : Table) : RawResult :=
  if matchesSector t then { acc with sector_rotation := tableDataRows t }
  else if matchesLong t then { acc with long_term := tableDataRows t }
  else acc

/-- Embeds the whole table loop: fold `classifyStep` over the page's tables
starting from the empty result. -/
def classifyTables (tables : List Table) : RawResult :=
  tables.foldl classifyStep ⟨[], []⟩

/-- Embeds `_scrape_card_layout` (lines 250–276): it writes a debug dump of
the page text and returns `result` unchanged — it never adds rows. -/
def scrapeCardLayout (r : RawResult) : RawResult := r

/-- Embeds the discovery portion of `scrape_portfolios` (lines 185–247): run
the table loop, and only when both sub-portfolios are empty consult the
card-layout fallback. -/
def discoverPortfolios (tables : List Table) : RawResult :=
  let r := classifyTables tables
  if r.sector_rotation.isEmpty && r.long_term.isEmpty then scrapeCardLayout r else r

/-- The persisted snapshot restricted to the two sub-portfolios (the
`last_updated` and `source` strings are omitted from the model). -/
structure Snapshot where
  sector_rotation : List Position
  long_term : List Position
deriving DecidableEq

/-- Login-level failures: the `RuntimeError` raised at line 127 when no email
selector fills (the spec's `LoginFieldNotFound`), and the Playwright timeout
that escapes line 158 (the spec's `LoginTimeout`). -/
inductive LoginError where
  | fieldNotFound
  | timeout
deriving DecidableEq

/-- Outcome of one whole run of `main` (lines 387–435): the content of the
output file after the run (`prior` when untouched), whether the file was
(re)written, and the process exit status. -/
structure RunResult where
  file : Snapshot
  fileWritten : Bool
  exit : Nat
deriving DecidableEq

/-- Embeds the snapshot assembly of `main` (lines 409–418): normalize each
raw sub-portfolio; the Yahoo enrichment (external network data, out of
scope) is abstracted as per-position update functions `eS`/`eL` — in the
source it mutates numeric fields of existing positions and never adds or
removes one. -/
def assembled (eS eL : Position → Position) (raw : RawResult) : Snapshot :=
  { sector_rotation := (normalize_portfolio raw.sector_rotation).map eS,
    long_term := (normalize_portfolio raw.long_term).map eL }

/-- Embeds the tail of `main` (lines 405–435): a login-level exception
propagates out of `scrape_portfolios` before the file write, leaving the
prior snapshot untouched and exiting non-zero (Python exits 1 on an uncaught
exception); on success the assembled snapshot is always written, and the
exit status is 1 exactly when both sub-portfolios are empty. -/
def runScraper (eS eL : Position → Position) (prior : Snapshot)
    (scraped : Except LoginError RawResult) : RunResult :=
  match scraped with
  | .error _ => { file := prior, fileWritten := false, exit := 1 }
  | .ok raw =>
    let snap := assembled eS eL raw
    { file := snap, fileWritten := true,
      exit := if snap.sector_rotation.isEmpty && snap.long_term.isEmpty then 1 else 0 }

/-- Embeds the email-fill loop (lines 117–124): `email_filled` is true when
some selector's `page.fill` succeeds. -/
def email_filled (selOk : List Bool) : Bool := selOk.any id

/-- Embeds lines 117–127: when no email selector fills, the login step raises
the field-not-found error; otherwise it proceeds. -/
def loginEmailStep (selOk : List Bool) : Except LoginError Unit :=
  if email_filled selOk then .ok () else .error .fieldNotFound

/-- A run of `main` with the login step made explicit: a login failure skips
scraping entirely. -/
def runWithLogin (eS eL : Position → Position) (prior : Snapshot)
    (selOk : List Bool) (raw : RawResult) : RunResult :=
  match loginEmailStep selOk with
  | .error e => runScraper eS eL prior (.error e)
  | .ok _ => runScraper eS eL prior (.ok raw)

/-- What the run does after submitting credentials. -/
inductive PostLogin where
  | scrape
  | abort
deriving DecidableEq

/-- Embeds the post-submission wait (lines 154–168): if the URL reaches the
dashboard pattern within the 15 s wait, proceed; otherwise the `PWTimeout` is
caught and a network-idle wait is tried — if that succeeds the run still
proceeds to scrape (navigating to the dashboard if needed), and only if it
also times out does the exception escape and abort the run. -/
def afterSubmit (dashUrlReached networkIdleReached : Bool) : PostLogin :=
  if dashUrlReached then .scrape
  else if networkIdleReached then .scrape
  else .abort

/-- Follows claim C7's words, for comparison with `get`: the value comes from
the first raw key, scanned in raw-key insertion order, whose lowercased
whitespace-trimmed form contains the candidate, with earlier-declared
candidates taking priority. -/
def resolveSpec (cands : List String) (row : RawRow) : Option String :=
  match cands with
  | [] => none
  | c :: cs =>
    match row.find? (fun p => hasSubStr c (lowerTrim p.1)) with
    | some p => some p.2
    | none => resolveSpec cs row

/-- Follows claim C6's words, for comparison with `classifyTables`: the table
with the greatest number of data rows, ties broken by first encountered. -/
def maxRowsTable (tables : List Table) : Option Table :=
  tables.foldl (fun best t =>
    match best with
    | none => some t
    | some b => if (tableDataRows t).length > (tableDataRows b).length then some t else some b)
    none

/-- The row sequence claim C6's structured-table strategy would return: the
data rows of the max-rows table. -/
def structuredTableResultSpec (tables : List Table) : List RawRow :=
  ((maxRowsTable tables).map tableDataRows).getD []

/-- A string is uppercase when every character is fixed by (ASCII)
uppercasing. -/
def isUpperStr (s : String) : Bool := s.data.all (fun c => charUpper c == c)

/-- The data rows of the last table in the list satisfying `p`, or `[]` when
none does — the sub-portfolio value produced by the classification loop. -/
def lastMatchRows (p : Table → Bool) (tables : List Table) : List RawRow :=
  match tables.reverse.find? p with
  | some t => tableDataRows t
  | none => []

/-- A concrete normalized position used by counterexamples and witnesses. -/
def posAAPL : Position :=
  ⟨"AAPL", "aapl", none, none, none, none, none, none, none, none, [("Ticker", "aapl")]⟩

/-- A concrete prior snapshot with a non-empty sector-rotation sub-portfolio. -/
def priorC1 : Snapshot := ⟨[posAAPL], []⟩

/-- A concrete extraction result with an empty sector rotation and a
non-empty long-term portfolio. -/
def rawC1 : RawResult := ⟨[], [[("Ticker", "MSFT")]]⟩

/-- A raw row whose resolved ticker cell is whitespace-only. -/
def rowBlankTicker : RawRow := [("ticker", " ")]

/-- A raw row with two column labels that collide after lowercasing. -/
def rowCollide : RawRow := [("Ticker", "AAPL"), ("TICKER", "MSFT")]

/-- A concrete table with a sector heading and one data row. -/
def tblSector : Table :=
  ⟨"Sector Rotation", ["Ticker", "Shares"], [], [["AAPL", "10"]]⟩

/-- A concrete table with three data rows but no recognized heading. -/
def tblBig : Table :=
  ⟨"Holdings", ["Ticker", "Shares"], [], [["MSFT", "1"], ["NVDA", "2"], ["AMZN", "3"]]⟩

/-- A concrete page: one small sector-labelled table and one larger table. -/
def tablesC6 : List Table := [tblSector, tblBig]

/-- A concrete raw row carrying a column not in the canonical schema. -/
def rowC9 : RawRow := [("Ticker", "AAPL"), ("Stop Loss", "95")]

/-- A concrete raw row with a ticker column but no name-like column. -/
def rowC10 : RawRow := [("Ticker", "aapl")]


theorem isEmpty_map {α β : Type} (f : α → β) (l : List α) : (l.map f).isEmpty = l.isEmpty := by
  cases l <;> rfl

theorem mem_of_mem_dropWhile {α : Type} (p : α → Bool) (l : List α) (c : α)
    (h : c ∈ l.dropWhile p) : c ∈ l := by
  induction l with
  | nil => exact h
  | cons a t ih =>
    rw [List.dropWhile_cons] at h
    split at h
    · exact List.mem_cons_of_mem _ (ih h)
    · exact h

theorem mem_stripList {c : Char} {l : List Char} (h : c ∈ stripList l) : c ∈ l := by
  unfold stripList at h
  rw [List.mem_reverse] at h
  have h1 := mem_of_mem_dropWhile _ _ _ h
  rw [List.mem_reverse] at h1
  exact mem_of_mem_dropWhile _ _ _ h1

theorem upperPairs_fixed : ∀ p ∈ upperPairs, upperPairs.find? (fun q => q.1 = p.2) = none := by
  decide

theorem charUpper_idem (c : Char) : charUpper (charUpper c) = charUpper c := by
  cases h : upperPairs.find? (fun q => q.1 = c) with
  | none =>
    have hc : charUpper c = c := by unfold charUpper; rw [h]; rfl
    rw [hc]
    exact hc
  | some p =>
    have hc : charUpper c = p.2 := by unfold charUpper; rw [h]; rfl
    have h2 := upperPairs_fixed p (List.mem_of_find?_eq_some h)
    rw [hc]
    unfold charUpper
    rw [h2]
    rfl

theorem isUpper_strip_upper_list (l : List Char) :
    (stripList (l.map charUpper)).all (fun c => charUpper c == c) = true := by
  rw [List.all_eq_true]
  intro c hc
  obtain ⟨x, _, hx⟩ := List.mem_map.mp (mem_stripList hc)
  rw [← hx, beq_iff_eq]
  exact charUpper_idem x

theorem isUpper_of_strip_upper (s : String) : isUpperStr (pyStrip (pyUpper s)) = true :=
  isUpper_strip_upper_list s.data

theorem normRow_fields {row : RawRow} {p : Position} (h : normRow row = some p) :
    ∃ t, get tickerCands (keys_lower row) = some t ∧ ¬t = "" ∧
      p.ticker = pyStrip (pyUpper t) ∧
      p.name = (if truthy (get nameCands (keys_lower row)) then
        (get nameCands (keys_lower row)).getD "" else t) ∧
      p.raw = row := by
  cases hg : get tickerCands (keys_lower row) with
  | none => simp [normRow, hg] at h
  | some t =>
    by_cases ht : t = ""
    · simp [normRow, hg, ht] at h
    · refine ⟨t, rfl, ht, ?_⟩
      simp only [normRow, hg, if_neg ht] at h
      obtain rfl := Option.some.inj h
      exact ⟨rfl, rfl, rfl⟩

theorem normalize_mem {rows : List RawRow} {p : Position} (h : p ∈ normalize_portfolio rows) :
    ∃ row, row ∈ rows ∧ normRow row = some p := by
  unfold normalize_portfolio at h
  exact List.mem_filterMap.mp h

/-- C5: `clean_num` maps `"$1,234.56"` to `1234.56` and `"(5.4%)"` to `-5.4`
(currency, thousands and percent punctuation stripped, parenthesized forms
negated), maps the unparsable `"N/A"` to `none` — not to zero — and maps a
`None` input to `none`; being a total function, it raises no error. -/
theorem claim_c5 :
    (clean_num (some "$1,234.56")).map PyFloat.toRat = some (1234.56 : ℚ) ∧
    (clean_num (some "(5.4%)")).map PyFloat.toRat = some (-5.4 : ℚ) ∧
    clean_num (some "N/A") = none ∧
    (clean_num (some "N/A")).map PyFloat.toRat ≠ some (0 : ℚ) ∧
    clean_num none = none := by
  have h1 : clean_num (some "$1,234.56") = some ⟨123456, 100⟩ := by decide
  have h2 : clean_num (some "(5.4%)") = some ⟨-54, 10⟩ := by decide
  have h3 : clean_num (some "N/A") = none := by decide
  refine ⟨?_, ?_, h3, ?_, rfl⟩
  · rw [h1]
    simp only [Option.map_some']
    norm_num [PyFloat.toRat]
  · rw [h2]
    simp only [Option.map_some']
    norm_num [PyFloat.toRat]
  · rw [h3]
    simp

/-- C8 counterexample: with the dashboard URL never reached within the wait
(the location never leaves the login surface) but the page reaching network
idle, the run proceeds to scrape rather than failing fatally, refuting the
claim that exhausting the URL wait is fatal. -/
theorem claim_c8_counterexample :
    afterSubmit false true = PostLogin.scrape ∧ PostLogin.scrape ≠ PostLogin.abort := by
  decide

/-- C8 amended: after credential submission the run aborts with a fatal
timeout only when both the 15 s dashboard-URL wait and the subsequent 15 s
network-idle wait exhaust; if the URL wait exhausts but the page reaches
network idle, the run proceeds to scrape (navigating to the dashboard if
needed). -/
theorem claim_c8_amended :
    ∀ dashUrlReached networkIdleReached : Bool,
      afterSubmit dashUrlReached networkIdleReached = PostLogin.abort ↔
        dashUrlReached = false ∧ networkIdleReached = false := by
  decide

/-- C1 counterexample: with a prior snapshot whose sector rotation `S` is
non-empty and a run extracting an empty sector rotation and a non-empty
long-term portfolio, the persisted sector rotation is `[]`, not `S` — `main`
never reads the prior file, so the empty extraction erases the prior value
(shown at the identity enrichment; the persisted sector rotation is `[]`
regardless of enrichment, which maps an empty list to an empty list). -/
theorem claim_c1_counterexample :
    priorC1.sector_rotation ≠ [] ∧
    rawC1.sector_rotation = [] ∧
    normalize_portfolio rawC1.long_term ≠ [] ∧
    (runScraper id id priorC1 (.ok rawC1)).file.sector_rotation ≠ priorC1.sector_rotation := by
  decide

/-- C1 amended: no fallback to the previously persisted snapshot exists — for
each sub-portfolio independently the run's normalized (and enriched)
extraction overwrites the persisted value, so a run extracting an empty
sector rotation persists an empty sector rotation (erasing the prior value)
while its long-term extraction is persisted as normalized. -/
theorem claim_c1_amended (eS eL : Position → Position) (prior : Snapshot) (raw : RawResult)
    (h : raw.sector_rotation = []) :
    (runScraper eS eL prior (.ok raw)).file.sector_rotation = [] ∧
    (runScraper eS eL prior (.ok raw)).file.long_term =
      (normalize_portfolio raw.long_term).map eL := by
  simp [runScraper, assembled, h, normalize_portfolio]

/-- C1 witness: the amended statement evaluated at the concrete prior
snapshot and extraction of the counterexample. -/
theorem claim_c1_witness :
    (runScraper id id priorC1 (.ok rawC1)).file.sector_rotation = [] ∧
    (runScraper id id priorC1 (.ok rawC1)).file.long_term =
      (normalize_portfolio rawC1.long_term).map id :=
  claim_c1_amended id id priorC1 rawC1 (by decide)

/-- C2: when no identity (email) input exists on the login page — every email
selector's fill attempt fails — the login step raises the field-not-found
error, which is fatal: the run never reaches the output write, the persisted
file stays exactly the prior snapshot, and the exit status is non-zero. -/
theorem claim_c2 (eS eL : Position → Position) (prior : Snapshot) (selOk : List Bool)
    (raw : RawResult) (h : ∀ b ∈ selOk, b = false) :
    loginEmailStep selOk = .error .fieldNotFound ∧
    (runWithLogin eS eL prior selOk raw).file = prior ∧
    (runWithLogin eS eL prior selOk raw).fileWritten = false ∧
    (runWithLogin eS eL prior selOk raw).exit ≠ 0 := by
  have he : email_filled selOk = false := by
    rw [email_filled, List.any_eq_false]
    intro b hb
    simp [h b hb]
  have hl : loginEmailStep selOk = .error .fieldNotFound := by
    rw [loginEmailStep, he]
    rfl
  refine ⟨hl, ?_, ?_, ?_⟩ <;> simp [runWithLogin, hl, runScraper]

/-- C2 witness: the statement evaluated with all four email selectors failing
on a concrete prior snapshot. -/
theorem claim_c2_witness :
    loginEmailStep [false, false, false, false] = .error .fieldNotFound ∧
    (runWithLogin id id priorC1 [false, false, false, false] rawC1).file = priorC1 ∧
    (runWithLogin id id priorC1 [false, false, false, false] rawC1).fileWritten = false ∧
    (runWithLogin id id priorC1 [false, false, false, false] rawC1).exit ≠ 0 :=
  claim_c2 id id priorC1 [false, false, false, false] rawC1 (by decide)

/-- C3: after a successful login the output file is always written (also in
the both-empty case, before the failure is reported), and the exit status is
zero exactly when the assembled snapshot has at least one non-empty
sub-portfolio; a login failure exits non-zero. -/
theorem claim_c3 (eS eL : Position → Position) (prior : Snapshot) (raw : RawResult)
    (e : LoginError) :
    ((runScraper eS eL prior (.ok raw)).exit = 0 ↔
      ¬(normalize_portfolio raw.sector_rotation = [] ∧
        normalize_portfolio raw.long_term = [])) ∧
    (runScraper eS eL prior (.ok raw)).fileWritten = true ∧
    (runScraper eS eL prior (.ok raw)).file = assembled eS eL raw ∧
    (runScraper eS eL prior (.error e)).exit ≠ 0 := by
  refine ⟨?_, rfl, rfl, by simp [runScraper]⟩
  show (if ((normalize_portfolio raw.sector_rotation).map eS).isEmpty &&
      ((normalize_portfolio raw.long_term).map eL).isEmpty then 1 else 0) = 0 ↔ _
  rw [isEmpty_map, isEmpty_map]
  rcases hs : (normalize_portfolio raw.sector_rotation).isEmpty <;>
    rcases hl : (normalize_portfolio raw.long_term).isEmpty <;>
      simp_all [List.isEmpty_iff]

theorem jsonOfNum_cases (o : Option PyFloat) :
    jsonOfNum o = JValue.null ∨ ∃ q, jsonOfNum o = JValue.q q := by
  cases o with
  | none => exact .inl rfl
  | some q => exact .inr ⟨q, rfl⟩

/-- C4 counterexample: on a raw row whose resolved ticker cell is the
whitespace-only string `" "` (truthy in Python), a position is emitted whose
ticker is the empty string — `.strip()` runs after the truthiness check —
refuting the non-emptiness half of the ticker invariant. -/
theorem claim_c4_counterexample :
    normalize_portfolio [rowBlankTicker] ≠ [] ∧
    (normalize_portfolio [rowBlankTicker]).map Position.ticker = [""] := by
  decide

/-- C4 amended: every emitted position's ticker is uppercase (every character
fixed by uppercasing), a row whose resolved ticker is `None` or the empty
string is dropped entirely — not emitted and with no error reported — but
the emitted ticker can be empty when the resolved raw cell is
whitespace-only. -/
theorem claim_c4_amended :
    (∀ rows p, p ∈ normalize_portfolio rows → isUpperStr p.ticker = true) ∧
    (∀ row, (get tickerCands (keys_lower row) = none ∨
        get tickerCands (keys_lower row) = some "") → normRow row = none) ∧
    (∀ rows row, normRow row = none →
      normalize_portfolio (row :: rows) = normalize_portfolio rows) := by
  refine ⟨?_, ?_, ?_⟩
  · intro rows p hp
    obtain ⟨row, _, hrow⟩ := normalize_mem hp
    obtain ⟨t, _, _, hticker, _, _⟩ := normRow_fields hrow
    rw [hticker]
    exact isUpper_of_strip_upper t
  · intro row h
    rcases h with h | h <;> simp [normRow, h]
  · intro rows row h
    simp [normalize_portfolio, List.filterMap_cons, h]

/-- C4 witness: the uppercase invariant of the amended statement evaluated on
a concrete emitted position. -/
theorem claim_c4_witness : isUpperStr posAAPL.ticker = true :=
  claim_c4_amended.1 [[("Ticker", "aapl")]] posAAPL (by decide)

/-- C9 counterexample: the serialized record of a concrete row carries the
original raw row under the `"_raw"` key — unnormalized RawRow data is
persisted — and its field names are the source's snake_case names plus
`sector` and `_raw`, not the §3 Position schema (no stop-loss, buy-up-to or
entry-date field). -/
theorem claim_c9_counterexample :
    ((normRow rowC9).map (fun p => (posFields p).map Prod.fst)) =
      some ["ticker", "name", "shares", "avg_cost", "curr_price", "market_value",
            "unrealized_pnl", "pct_return", "weight", "sector", "_raw"] ∧
    ((normRow rowC9).map (fun p => (posFields p).lookup "_raw")) =
      some (some (JValue.obj rowC9)) := by
  decide

/-- C9 amended: every persisted position record carries exactly the fixed
field list `ticker, name, shares, avg_cost, curr_price, market_value,
unrealized_pnl, pct_return, weight, sector, _raw` in that order; absent
numeric values are serialized as JSON null (never omitted); and the `_raw`
field preserves one of the input raw rows verbatim. -/
theorem claim_c9_amended (rows : List RawRow) (p : Position)
    (hp : p ∈ normalize_portfolio rows) :
    (posFields p).map Prod.fst =
      ["ticker", "name", "shares", "avg_cost", "curr_price", "market_value",
       "unrealized_pnl", "pct_return", "weight", "sector", "_raw"] ∧
    (∀ k, k ∈ ["shares", "avg_cost", "curr_price", "market_value",
        "unrealized_pnl", "pct_return", "weight"] →
      ∃ v, (posFields p).lookup k = some v ∧
        (v = JValue.null ∨ ∃ q, v = JValue.q q)) ∧
    (∃ row, row ∈ rows ∧ (posFields p).lookup "_raw" = some (JValue.obj row)) := by
  refine ⟨rfl, ?_, ?_⟩
  · intro k hk
    fin_cases hk
    · exact ⟨jsonOfNum p.shares, rfl, jsonOfNum_cases _⟩
    · exact ⟨jsonOfNum p.avg_cost, rfl, jsonOfNum_cases _⟩
    · exact ⟨jsonOfNum p.curr_price, rfl, jsonOfNum_cases _⟩
    · exact ⟨jsonOfNum p.market_value, rfl, jsonOfNum_cases _⟩
    · exact ⟨jsonOfNum p.unrealized_pnl, rfl, jsonOfNum_cases _⟩
    · exact ⟨jsonOfNum p.pct_return, rfl, jsonOfNum_cases _⟩
    · exact ⟨jsonOfNum p.weight, rfl, jsonOfNum_cases _⟩
  · obtain ⟨row, hrow, heq⟩ := normalize_mem hp
    obtain ⟨_, _, _, _, _, hraw⟩ := normRow_fields heq
    exact ⟨row, hrow, by rw [show (posFields p).lookup "_raw" =
      some (JValue.obj p.raw) from rfl, hraw]⟩

/-- C9 witness: the fixed field list of the amended statement evaluated on a
concrete emitted position. -/
theorem claim_c9_witness :
    (posFields ⟨"AAPL", "AAPL", none, none, none, none, none, none, none, none,
        rowC9⟩).map Prod.fst =
      ["ticker", "name", "shares", "avg_cost", "curr_price", "market_value",
       "unrealized_pnl", "pct_return", "weight", "sector", "_raw"] :=
  (claim_c9_amended [rowC9]
    ⟨"AAPL", "AAPL", none, none, none, none, none, none, none, none, rowC9⟩
    (by decide)).1

/-- C10: when a position is emitted from a row and no raw key matches a name
candidate — or the matched value is empty — the position's `name` is the raw
resolved ticker value before uppercasing, and it serializes as a JSON
string, not null. -/
theorem claim_c10 (row : RawRow) (p : Position) (t : String)
    (hp : normRow row = some p)
    (ht : get tickerCands (keys_lower row) = some t)
    (hn : get nameCands (keys_lower row) = none ∨
      get nameCands (keys_lower row) = some "") :
    p.name = t ∧ (posFields p).lookup "name" = some (JValue.s t) := by
  obtain ⟨u, hu, _, _, hname, _⟩ := normRow_fields hp
  rw [ht] at hu
  obtain rfl := Option.some.inj hu
  have hfalse : truthy (get nameCands (keys_lower row)) = false := by
    rcases hn with h | h <;> rw [h] <;> rfl
  rw [hfalse] at hname
  simp only [if_neg Bool.false_ne_true] at hname
  refine ⟨hname, ?_⟩
  rw [show (posFields p).lookup "name" = some (JValue.s p.name) from rfl, hname]

/-- C10 witness: the statement evaluated on a concrete row with a ticker
column and no name-like column. -/
theorem claim_c10_witness :
    posAAPL.name = "aapl" ∧
    (posFields posAAPL).lookup "name" = some (JValue.s "aapl") :=
  claim_c10 rowC10 posAAPL "aapl" (by decide) (by decide) (Or.inl (by decide))

theorem classifyStep_sector (acc : RawResult) (t : Table) :
    (classifyStep acc t).sector_rotation =
      if matchesSector t then tableDataRows t else acc.sector_rotation := by
  by_cases hs : matchesSector t <;> by_cases hl : matchesLong t <;>
    simp [classifyStep, hs, hl]

theorem classifyStep_long (acc : RawResult) (t : Table) :
    (classifyStep acc t).long_term =
      if !matchesSector t && matchesLong t then tableDataRows t else acc.long_term := by
  by_cases hs : matchesSector t <;> by_cases hl : matchesLong t <;>
    simp [classifyStep, hs, hl]

theorem classify_foldl (tables : List Table) : ∀ acc : RawResult,
    tables.foldl classifyStep acc =
      ⟨(match tables.reverse.find? matchesSector with
         | some t => tableDataRows t
         | none => acc.sector_rotation),
       (match tables.reverse.find? (fun t => !matchesSector t && matchesLong t) with
         | some t => tableDataRows t
         | none => acc.long_term)⟩ := by
  induction tables with
  | nil => intro acc; rfl
  | cons t ts ih =>
    intro acc
    rw [List.foldl_cons, ih (classifyStep acc t), List.reverse_cons]
    rw [List.find?_append, List.find?_append]
    simp only [RawResult.mk.injEq]
    constructor
    · cases hs : ts.reverse.find? matchesSector with
      | some u => simp [Option.or]
      | none =>
        simp only [Option.or, classifyStep_sector]
        by_cases hm : matchesSector t <;>
          simp [List.find?_cons_of_pos, List.find?_cons_of_neg, hm]
    · cases hs : ts.reverse.find? (fun u => !matchesSector u && matchesLong u) with
      | some u => simp [Option.or]
      | none =>
        simp only [Option.or, classifyStep_long]
        by_cases hm : (!matchesSector t && matchesLong t) = true <;>
          simp [List.find?_cons_of_pos, List.find?_cons_of_neg, hm]

/-- C6 counterexample: on a page with a one-row table whose heading mentions
"Sector" and a three-row table with an unrecognized heading, the claimed
max-row selection would return the three-row table's rows, but the code —
which classifies tables by heading keywords, not row count — assigns the
one-row table to sector rotation and discards the three-row table entirely. -/
theorem claim_c6_counterexample :
    (structuredTableResultSpec tablesC6).length = 3 ∧
    (discoverPortfolios tablesC6).sector_rotation ≠ structuredTableResultSpec tablesC6 ∧
    (discoverPortfolios tablesC6).long_term ≠ structuredTableResultSpec tablesC6 ∧
    (discoverPortfolios tablesC6).sector_rotation = tableDataRows tblSector := by
  decide

/-- C6 amended: the structured-table pass classifies each enumerated table by
its nearby heading text — a heading containing "sector" assigns the table's
rows to sector rotation, otherwise a heading containing both "long" and
"term" assigns them to long term, with a later matching table overwriting an
earlier one (no row-count comparison) — and the card-layout fallback, only
consulted when both sub-portfolios end up empty, returns the result
unchanged, so the pass's result is always used exclusively. -/
theorem claim_c6_amended (tables : List Table) :
    discoverPortfolios tables = classifyTables tables ∧
    classifyTables tables =
      ⟨lastMatchRows matchesSector tables,
       lastMatchRows (fun t => !matchesSector t && matchesLong t) tables⟩ := by
  constructor
  · simp only [discoverPortfolios, scrapeCardLayout, ite_self]
  · rw [classifyTables, classify_foldl tables ⟨[], []⟩]
    rfl

/-- C7 counterexample: on a row whose two column labels collide after
lowercasing (`"Ticker"` and `"TICKER"`), the normalizer returns the later
raw key's value (`"MSFT"`), not the first-matching raw key's value
(`"AAPL"`) demanded by the claim — the dict comprehension keeps the last
value for a collided key. -/
theorem claim_c7_counterexample :
    (normRow rowCollide).map Position.ticker = some "MSFT" ∧
    get tickerCands (keys_lower rowCollide) = some "MSFT" ∧
    resolveSpec tickerCands rowCollide = some "AAPL" := by
  decide

theorem dictInsert_notMem {d : List (String × String)} {k : String} (v : String)
    (h : ¬k ∈ d.map Prod.fst) : dictInsert d k v = d ++ [(k, v)] := by
  rw [dictInsert, if_neg]
  intro hc
  obtain ⟨p, hp, hpk⟩ := List.any_eq_true.mp hc
  exact h (List.mem_map.mpr ⟨p, hp, of_decide_eq_true hpk⟩)

theorem pyDict_go (pairs : List (String × String)) : ∀ acc : List (String × String),
    ((acc ++ pairs).map Prod.fst).Nodup →
    pairs.foldl (fun d p => dictInsert d p.1 p.2) acc = acc ++ pairs := by
  induction pairs with
  | nil => intro acc _; simp
  | cons p ps ih =>
    intro acc hnd
    have hnd' := hnd
    rw [List.map_append, List.nodup_append] at hnd'
    obtain ⟨-, -, hdisj⟩ := hnd'
    have hnotin : ¬p.1 ∈ acc.map Prod.fst := fun hmem =>
      hdisj hmem (by simp)
    have hre : (acc ++ [p]) ++ ps = acc ++ p :: ps := by simp
    rw [List.foldl_cons, dictInsert_notMem p.2 hnotin,
      ih (acc ++ [p]) (by rw [hre]; exact hnd), hre]

theorem pyDict_nodup {pairs : List (String × String)}
    (h : (pairs.map Prod.fst).Nodup) : pyDict pairs = pairs :=
  pyDict_go pairs [] h

theorem keys_lower_nodup {row : RawRow}
    (h : (row.map (fun p => lowerTrim p.1)).Nodup) :
    keys_lower row = row.map (fun p => (lowerTrim p.1, p.2)) := by
  rw [keys_lower]
  apply pyDict_nodup
  rw [List.map_map]
  exact h

theorem find?_map {α β : Type} (f : α → β) (q : β → Bool) (l : List α) :
    (l.map f).find? q = (l.find? (fun a => q (f a))).map f := by
  induction l with
  | nil => rfl
  | cons a t ih =>
    rw [List.map_cons]
    by_cases h : q (f a)
    · rw [List.find?_cons_of_pos _ h]
      have h2 : (a :: t).find? (fun a => q (f a)) = some a :=
        List.find?_cons_of_pos _ (by simpa using h)
      rw [h2]
      rfl
    · rw [List.find?_cons_of_neg _ (by simpa using h)]
      have h2 : (a :: t).find? (fun a => q (f a)) = t.find? (fun a => q (f a)) :=
        List.find?_cons_of_neg _ (by simpa using h)
      rw [h2, ih]

/-- C7 amended: for every RawRow whose keys remain pairwise distinct after
lowercasing and trimming, the normalizer's resolution is exactly the claimed
one — first-declared candidate wins, then the first raw key in insertion
order whose lowercased trimmed form contains it supplies the value; when two
raw keys collide after lowercasing, however, the later key's value replaces
the earlier one's (at the earlier position) before resolution. -/
theorem claim_c7_amended (cands : List String) (row : RawRow)
    (h : (row.map (fun p => lowerTrim p.1)).Nodup) :
    get cands (keys_lower row) = resolveSpec cands row := by
  induction cands with
  | nil => rfl
  | cons c cs ih =>
    rw [get, resolveSpec, keys_lower_nodup h,
      find?_map (fun p => (lowerTrim p.1, p.2)) (fun p => hasSubStr c p.1) row]
    cases hf : row.find? (fun a => hasSubStr c (lowerTrim a.1)) with
    | some p => rfl
    | none =>
      rw [keys_lower_nodup h] at ih
      exact ih

/-- C7 witness: the amended statement evaluated on a concrete collision-free
row. -/
theorem claim_c7_witness :
    get tickerCands (keys_lower [("Ticker", "AAPL"), ("Shares", "10")]) =
      resolveSpec tickerCands [("Ticker", "AAPL"), ("Shares", "10")] :=
  claim_c7_amended tickerCands [("Ticker", "AAPL"), ("Shares", "10")] (by decide)

end Scraper
